import Mathlib

/-!
Shallow embedding of the step-trace generation engine of the
crypto-visual-explorer repository (src/components/StepVisualizer.tsx)
and proofs about it.

JavaScript strings are modelled as lists of natural numbers, one entry per
UTF-16 code unit (for the literals appearing in the source all characters
are in the basic multilingual plane, so code units and code points agree).
JavaScript numbers that stay small nonnegative integers are modelled as
Nat; the step record field id, which the Feistel-style generator sets to
values such as round + 2 + 0.1, is modelled as an exact rational (the field
is a display-only label and no arithmetic is ever performed on it).
-/

namespace StepViz

/-- A JavaScript string, as its list of UTF-16 code units. -/
abbrev JStr : Type := List Nat

/-- Code-unit list of a Lean string literal, used to transcribe the string
literals of the source. -/
def jstr (s : String) : JStr := s.data.map Char.toNat

/-- Recursion core of the decimal rendering, structurally recursive on a
fuel bound (the recursion divides by ten, so any fuel above the value
itself is enough and the zero-fuel clause is never reached). -/
def natDecGo : Nat → Nat → JStr
  | 0, _ => []
  | fuel + 1, n => if n < 10 then [48 + n] else natDecGo fuel (n / 10) ++ [48 + n % 10]

/-- Decimal rendering of a nonnegative integer, as JavaScript template
interpolation renders it (code unit 48 is the digit zero). -/
def natDec (n : Nat) : JStr := natDecGo (n + 1) n

/-- One hexadecimal digit, uppercase, as toString(16).toUpperCase renders it
(48 is the digit zero, 65 is the letter A). -/
def hexDigit (n : Nat) : Nat := if n < 10 then 48 + n else 55 + n

/-- Recursion core of the hexadecimal rendering, structurally recursive on
a fuel bound (the recursion divides by sixteen, so any fuel above the
value itself is enough and the zero-fuel clause is never reached). -/
def toHexGo : Nat → Nat → JStr
  | 0, _ => []
  | fuel + 1, n => if n < 16 then [hexDigit n] else toHexGo fuel (n / 16) ++ [hexDigit (n % 16)]

/-- Uppercase hexadecimal rendering of a nonnegative integer, matching
n.toString(16).toUpperCase() of the source. -/
def toHexUpper (n : Nat) : JStr := toHexGo (n + 1) n

/-- padStart(4, zero digit) of the source: left-pad with the digit zero to
length four. -/
def padStart4 (s : JStr) : JStr :=
  List.replicate (4 - List.length s) 48 ++ s

/-- The tag of the visualizationType field of the richer step shape. -/
inductive VizType where
  | matrix | bits | text | diagram
deriving DecidableEq

/-- The step record of the richer (canonical) StepVisualizer variant.
The untyped visualizationData payload of the source is display-only
(colors and grids for redrawing) and is not modelled. -/
structure Step where
  id : ℚ
  title : JStr
  description : JStr
  input : JStr
  output : JStr
  explanation : JStr
  visualization : Option JStr := none
  visualizationType : Option VizType := none
deriving DecidableEq

instance : Inhabited Step :=
  ⟨{ id := 0, title := [], description := [], input := [], output := [],
     explanation := [] }⟩

/-- The step record of the minimal (superseded) StepVisualizer variant:
the same fields except the visualizationType/visualizationData pair. -/
structure StepMin where
  id : ℚ
  title : JStr
  description : JStr
  input : JStr
  output : JStr
  explanation : JStr
  visualization : Option JStr := none
deriving DecidableEq

/-- Projection of a rich step onto the fields the minimal step shape has. -/
def projStep (s : Step) : StepMin :=
  { id := s.id, title := s.title, description := s.description,
    input := s.input, output := s.output, explanation := s.explanation,
    visualization := s.visualization }

/-- The mode argument (Action type of CryptoLearningTool.tsx). -/
inductive Action where
  | encrypt | decrypt | both
deriving DecidableEq

/-- Recursion core of the chunking loop, structurally recursive on a fuel
bound (every pass consumes at least one character, so the input's length
is enough fuel and the zero-fuel clause is never reached). -/
def chunks8Go : Nat → JStr → List JStr
  | 0, _ => []
  | _, [] => []
  | fuel + 1, l => List.take 8 l :: chunks8Go fuel (List.drop 8 l)

/-- The chunking loop of generateChecksumSteps: substring(i, i + 8) slices
taken at i = 0, 8, 16, ... while i < input.length. -/
def chunks8 (input : JStr) : List JStr := chunks8Go (List.length input) input

/-- The per-chunk sums of character codes (chunk.reduce of the source;
charCodeAt is the identity on the code-unit model). -/
def chunkSums (input : JStr) : List Nat :=
  (chunks8 input).map (fun chunk => chunk.foldl (· + ·) 0)

/-- The total of all chunk sums. -/
def totalSum (input : JStr) : Nat :=
  (chunkSums input).foldl (· + ·) 0

/-- The checksum value: the source computes (~totalSum) & 0xFFFF with
JavaScript 32-bit operators, which for every nonnegative integer t equals
65535 - t % 65536 (the low 16 bits of the bitwise complement). -/
def checksum16 (input : JStr) : Nat :=
  65535 - totalSum input % 65536

/-- generateChecksumSteps of the richer variant (StepVisualizer.tsx,
first copy). The asciiValues array of the source maps charCodeAt over each
chunk, which is the identity on the code-unit model, so chunks serve as
their own code lists; the rendered forms join the decimal renderings. -/
def generateChecksumSteps (input : JStr) : List Step :=
  let chunks := chunks8 input
  let asciiValues := chunks
  let sums := chunkSums input
  let total := totalSum input
  let cksum := checksum16 input
  [ { id := 1,
      title := jstr "Step 1: Break Data into Chunks",
      description := jstr "Divide the input data into fixed-size blocks",
      input := input,
      output := List.intercalate (jstr " | ") chunks,
      explanation := jstr "Data is broken into " ++ natDec chunks.length ++
        jstr " chunks of up to 8 characters each.",
      visualization := some (jstr "Chunks: " ++
        List.intercalate (jstr " ")
          (chunks.enum.map (fun p =>
            jstr "[" ++ natDec (p.1 + 1) ++ jstr ": \"" ++ p.2 ++ jstr "\"]"))) },
    { id := 2,
      title := jstr "Step 2: Convert to ASCII Values",
      description := jstr "Convert each character to its ASCII numeric value",
      input := List.intercalate (jstr " | ") chunks,
      output := List.intercalate (jstr " | ")
        (asciiValues.map (fun chunk => List.intercalate (jstr ",") (chunk.map natDec))),
      explanation := jstr "Each character is converted to its ASCII value for mathematical operations.",
      visualization := some (List.intercalate (jstr "\n")
        (asciiValues.enum.map (fun p =>
          jstr "Chunk " ++ natDec (p.1 + 1) ++ jstr ": [" ++
            List.intercalate (jstr ", ") (p.2.map natDec) ++ jstr "]"))) },
    { id := 3,
      title := jstr "Step 3: Sum Each Chunk",
      description := jstr "Calculate the sum of ASCII values in each chunk",
      input := List.intercalate (jstr " | ")
        (asciiValues.map (fun chunk => List.intercalate (jstr ",") (chunk.map natDec))),
      output := List.intercalate (jstr ", ") (sums.map natDec),
      explanation := jstr "Sum the ASCII values within each chunk to get intermediate results.",
      visualization := some (List.intercalate (jstr "\n")
        (sums.enum.map (fun p =>
          jstr "Chunk " ++ natDec (p.1 + 1) ++ jstr " sum: " ++ natDec p.2))) },
    { id := 4,
      title := jstr "Step 4: Calculate Final Checksum",
      description := jstr "Sum all chunk values and apply one\x27s complement",
      input := List.intercalate (jstr " + ") (sums.map natDec),
      output := jstr "Checksum: " ++ padStart4 (toHexUpper cksum),
      explanation := jstr "Total sum: " ++ natDec total ++
        jstr ", One\x27s complement: " ++ natDec cksum,
      visualization := some (jstr "Final calculation: ~(" ++ natDec total ++
        jstr ") = " ++ natDec cksum ++ jstr " (0x" ++ toHexUpper cksum ++ jstr ")") } ]

/-- generateChecksumSteps of the minimal (superseded) variant, whose body
is textually identical to the richer variant's; only the step record shape
lacks the visualizationType/visualizationData fields. -/
def generateChecksumStepsMin (input : JStr) : List StepMin :=
  let chunks := chunks8 input
  let asciiValues := chunks
  let sums := chunkSums input
  let total := totalSum input
  let cksum := checksum16 input
  [ { id := 1,
      title := jstr "Step 1: Break Data into Chunks",
      description := jstr "Divide the input data into fixed-size blocks",
      input := input,
      output := List.intercalate (jstr " | ") chunks,
      explanation := jstr "Data is broken into " ++ natDec chunks.length ++
        jstr " chunks of up to 8 characters each.",
      visualization := some (jstr "Chunks: " ++
        List.intercalate (jstr " ")
          (chunks.enum.map (fun p =>
            jstr "[" ++ natDec (p.1 + 1) ++ jstr ": \"" ++ p.2 ++ jstr "\"]"))) },
    { id := 2,
      title := jstr "Step 2: Convert to ASCII Values",
      description := jstr "Convert each character to its ASCII numeric value",
      input := List.intercalate (jstr " | ") chunks,
      output := List.intercalate (jstr " | ")
        (asciiValues.map (fun chunk => List.intercalate (jstr ",") (chunk.map natDec))),
      explanation := jstr "Each character is converted to its ASCII value for mathematical operations.",
      visualization := some (List.intercalate (jstr "\n")
        (asciiValues.enum.map (fun p =>
          jstr "Chunk " ++ natDec (p.1 + 1) ++ jstr ": [" ++
            List.intercalate (jstr ", ") (p.2.map natDec) ++ jstr "]"))) },
    { id := 3,
      title := jstr "Step 3: Sum Each Chunk",
      description := jstr "Calculate the sum of ASCII values in each chunk",
      input := List.intercalate (jstr " | ")
        (asciiValues.map (fun chunk => List.intercalate (jstr ",") (chunk.map natDec))),
      output := List.intercalate (jstr ", ") (sums.map natDec),
      explanation := jstr "Sum the ASCII values within each chunk to get intermediate results.",
      visualization := some (List.intercalate (jstr "\n")
        (sums.enum.map (fun p =>
          jstr "Chunk " ++ natDec (p.1 + 1) ++ jstr " sum: " ++ natDec p.2))) },
    { id := 4,
      title := jstr "Step 4: Calculate Final Checksum",
      description := jstr "Sum all chunk values and apply one\x27s complement",
      input := List.intercalate (jstr " + ") (sums.map natDec),
      output := jstr "Checksum: " ++ padStart4 (toHexUpper cksum),
      explanation := jstr "Total sum: " ++ natDec total ++
        jstr ", One\x27s complement: " ++ natDec cksum,
      visualization := some (jstr "Final calculation: ~(" ++ natDec total ++
        jstr ") = " ++ natDec cksum ++ jstr " (0x" ++ toHexUpper cksum ++ jstr ")") } ]

/-- Recursion core of the UTF-8 encoder, structurally recursive on a fuel
bound (every pass consumes at least one code unit, so the sequence's
length is enough fuel and the zero-fuel clause is never reached). -/
def utf8Go : Nat → List Nat → List Nat
  | 0, _ => []
  | _, [] => []
  | fuel + 1, c :: rest =>
    if c < 128 then c :: utf8Go fuel rest
    else if c < 2048 then (192 + c / 64) :: (128 + c % 64) :: utf8Go fuel rest
    else if 55296 ≤ c ∧ c < 56320 then
      match rest with
      | [] => [239, 191, 189]
      | d :: rest2 =>
        if 56320 ≤ d ∧ d < 57344 then
          let cp := 65536 + (c - 55296) * 1024 + (d - 56320)
          (240 + cp / 262144) :: (128 + cp / 4096 % 64) :: (128 + cp / 64 % 64) ::
            (128 + cp % 64) :: utf8Go fuel rest2
        else 239 :: 191 :: 189 :: utf8Go fuel (d :: rest2)
    else if 56320 ≤ c ∧ c < 57344 then 239 :: 191 :: 189 :: utf8Go fuel rest
    else (224 + c / 4096) :: (128 + c / 64 % 64) :: (128 + c % 64) :: utf8Go fuel rest

/-- UTF-8 encoding of a UTF-16 code-unit sequence, as Buffer.from(string)
performs it in Node: one to three bytes per unit, surrogate pairs combined
into four-byte sequences, lone surrogates replaced by U+FFFD (bytes
239, 191, 189). -/
def utf8Units (s : List Nat) : List Nat := utf8Go (List.length s) s

/-- One character of the standard base64 alphabet (65 is the letter A,
97 the letter a, 48 the digit zero, 43 the plus sign, 47 the slash). -/
def b64Char (n : Nat) : Nat :=
  if n < 26 then 65 + n
  else if n < 52 then 97 + (n - 26)
  else if n < 62 then 48 + (n - 52)
  else if n = 62 then 43 else 47

/-- Standard base64 of a byte list with padding (61 is the equals sign),
as Buffer.toString with the base64 encoding produces it. -/
def base64 : List Nat → List Nat
  | [] => []
  | [a] => [b64Char (a / 4), b64Char (a % 4 * 16), 61, 61]
  | [a, b] => [b64Char (a / 4), b64Char (a % 4 * 16 + b / 16), b64Char (b % 16 * 4), 61]
  | a :: b :: c :: rest =>
    b64Char (a / 4) :: b64Char (a % 4 * 16 + b / 16) ::
      b64Char (b % 16 * 4 + c / 64) :: b64Char (c % 64) :: base64 rest

/-- padEnd(8, space) followed by substring(0, 8) of generateDESSteps. -/
def desPad (input : JStr) : JStr :=
  (input ++ List.replicate (8 - List.length input) 32).take 8

/-- The fixed sample key of generateDESSteps. -/
def desKey : JStr := jstr "CRYPTO01"

/-- The three demonstration subkeys: key characters plus the round index,
modulo 256. -/
def desSubkeys : List JStr :=
  (List.range 3).map (fun i => desKey.map (fun c => (c + i) % 256))

/-- The subkey the source indexes as subkeys[round - 1]. -/
def desSubkey (round : Nat) : JStr := desSubkeys.getD (round - 1) []

/-- The expansion: right half plus a copy of its first character
(charAt(0) of an empty string is the empty string, hence take 1). -/
def desExpand (right : JStr) : JStr := right ++ right.take 1

/-- XOR of the expansion with the round subkey, the subkey cycled by index
modulo its length (the fixed key is nonempty, so the modulus is positive). -/
def desXorKey (round : Nat) (e : JStr) : JStr :=
  e.mapIdx (fun i c => c ^^^ (desSubkey round).getD (i % (desSubkey round).length) 0)

/-- The substitution: add position index plus round index, modulo 256. -/
def desSubst (round : Nat) (x : JStr) : JStr :=
  x.mapIdx (fun i c => (c + i + round) % 256)

/-- The permutation: character-order reversal. -/
def desPermute (s : JStr) : JStr := s.reverse

/-- The whole per-round function f applied to the right half. -/
def desF (round : Nat) (right : JStr) : JStr :=
  desPermute (desSubst round (desXorKey round (desExpand right)))

/-- One round of generateDESSteps: the five step records it pushes and the
currentData value it leaves behind. Note the source assigns
newRight = left (the unmodified old left half) and computes newLeft as the
XOR of the old right half with the permuted string. -/
def desRound (round : Nat) (currentData : JStr) : List Step × JStr :=
  let left := currentData.take 4
  let right := currentData.drop 4
  let newRight := left
  let expandedRight := desExpand right
  let xorResult := desXorKey round expandedRight
  let substituted := desSubst round xorResult
  let permuted := desPermute substituted
  let newLeft := right.mapIdx (fun i c => c ^^^ permuted.getD (i % permuted.length) 0)
  ([ { id := (round : ℚ) + 2,
       title := jstr "Step " ++ natDec (round + 2) ++ jstr ": Round " ++
         natDec round ++ jstr " - Expansion",
       description := jstr "Expand the 32-bit right half to 48 bits for XOR with subkey " ++
         natDec round,
       input := jstr "R" ++ natDec (round - 1) ++ jstr ": " ++ right,
       output := jstr "E(R" ++ natDec (round - 1) ++ jstr "): " ++ expandedRight,
       explanation := jstr "The 32-bit right half is expanded to 48 bits using an expansion permutation, repeating certain bits to match the subkey size.",
       visualizationType := some VizType.bits },
     { id := (round : ℚ) + 2 + 1/10,
       title := jstr "Step " ++ natDec (round + 2) ++ jstr ".1: Round " ++
         natDec round ++ jstr " - Key XOR",
       description := jstr "XOR the expanded right half with subkey " ++ natDec round,
       input := jstr "E(R" ++ natDec (round - 1) ++ jstr "): " ++ expandedRight ++
         jstr " ⊕ K" ++ natDec round ++ jstr ": " ++ desSubkey round,
       output := xorResult,
       explanation := jstr "The expanded right half is XORed with the round subkey, introducing key-dependent transformation.",
       visualizationType := some VizType.diagram },
     { id := (round : ℚ) + 2 + 2/10,
       title := jstr "Step " ++ natDec (round + 2) ++ jstr ".2: Round " ++
         natDec round ++ jstr " - S-Box Substitution",
       description := jstr "Apply the DES S-box substitution to get a 32-bit result",
       input := xorResult,
       output := substituted,
       explanation := jstr "The 48-bit XOR result is divided into 8 blocks of 6 bits each. Each block passes through a specific S-box that transforms 6 bits into 4 bits based on non-linear substitution rules.",
       visualizationType := some VizType.matrix },
     { id := (round : ℚ) + 2 + 3/10,
       title := jstr "Step " ++ natDec (round + 2) ++ jstr ".3: Round " ++
         natDec round ++ jstr " - P-Box Permutation",
       description := jstr "Permute the S-box output for diffusion",
       input := substituted,
       output := permuted,
       explanation := jstr "The 32-bit S-box output undergoes a permutation that rearranges the bits to provide diffusion, spreading the influence of each input bit.",
       visualizationType := some VizType.bits },
     { id := (round : ℚ) + 2 + 4/10,
       title := jstr "Step " ++ natDec (round + 2) ++ jstr ".4: Round " ++
         natDec round ++ jstr " - Feistel Function Result",
       description := jstr "Complete round " ++ natDec round ++ jstr " with L" ++
         natDec round ++ jstr " = R" ++ natDec (round - 1) ++ jstr " and R" ++
         natDec round ++ jstr " = L" ++ natDec (round - 1) ++ jstr " ⊕ f(R" ++
         natDec (round - 1) ++ jstr ", K" ++ natDec round ++ jstr ")",
       input := jstr "L" ++ natDec (round - 1) ++ jstr ": " ++ left ++
         jstr ", R" ++ natDec (round - 1) ++ jstr ": " ++ right,
       output := jstr "L" ++ natDec round ++ jstr ": " ++ newLeft ++
         jstr ", R" ++ natDec round ++ jstr ": " ++ newRight,
       explanation := jstr "The Feistel structure: the new left half becomes the previous right half, and the new right half is the XOR of the previous left half with the function output.",
       visualizationType := some VizType.diagram } ],
   newLeft ++ newRight)

/-- The currentData value after the three rounds of generateDESSteps. -/
def desRoundsData (input : JStr) : JStr :=
  (desRound 3 (desRound 2 (desRound 1 (desPad input).reverse).2).2).2

/-- The reversed final block of generateDESSteps (the finalResult variable
before any encoding). -/
def desFinalBlock (input : JStr) : JStr := (desRoundsData input).reverse

/-- generateDESSteps of the richer variant. -/
def generateDESSteps (input : JStr) (action : Action) : List Step :=
  let paddedInput := desPad input
  let initialPermutation := paddedInput.reverse
  let step1 : Step :=
    { id := 1,
      title := jstr "Step 1: Initial Permutation (IP)",
      description := jstr "Rearrange the 64-bit input block according to the DES initial permutation table",
      input := paddedInput,
      output := initialPermutation,
      explanation := jstr "The 64-bit input block undergoes a fixed initial permutation that rearranges the bits in a defined order, independent of the key.",
      visualizationType := some VizType.matrix }
  let step2 : Step :=
    { id := 2,
      title := jstr "Step 2: Key Schedule Generation",
      description := jstr "Generate 16 subkeys from the main 56-bit key",
      input := desKey,
      output := List.intercalate (jstr " → ") desSubkeys ++ jstr " → ... → K16",
      explanation := jstr "The main 56-bit key goes through permutation, shifting, and compression to generate 16 different 48-bit subkeys, one for each round.",
      visualizationType := some VizType.diagram }
  let r1 := desRound 1 initialPermutation
  let r2 := desRound 2 r1.2
  let r3 := desRound 3 r2.2
  let steps0 := [step1, step2] ++ r1.1 ++ r2.1 ++ r3.1
  let finalResult := r3.2.reverse
  steps0 ++
    [ { id := (steps0.length : ℚ) + 1,
        title := jstr "Final Step: Reverse Initial Permutation (IP⁻¹)",
        description := jstr "Apply the final permutation (inverse of initial permutation)",
        input := r3.2,
        output := if action = Action.encrypt then
            (base64 (utf8Units finalResult)).take 12 ++ jstr "..."
          else finalResult,
        explanation := jstr "The 64-bit result after all rounds undergoes the inverse permutation of the initial permutation, producing the final output.",
        visualizationType := some VizType.matrix } ]

/-- padEnd(16, space) followed by substring(0, 16) of generateAESSteps. -/
def aesPad (input : JStr) : JStr :=
  (input ++ List.replicate (16 - List.length input) 32).take 16

/-- The fixed sample key of generateAESSteps. -/
def aesKey : JStr := jstr "CRYPTOGRAPHY_KEY"

/-- The 4x4 row-major grid rows the source builds from a state string,
filling cells beyond the string's length with the given character. -/
def grid4 (s : JStr) (fill : Nat) : List JStr :=
  (List.range 4).map (fun i => (List.range 4).map (fun j =>
    if i * 4 + j < s.length then s.getD (i * 4 + j) 0 else fill))

/-- The ShiftRows loop of generateAESSteps, exactly as written: for each
row and column it computes newCol and newIndex, but then appends the
character at originalIndex whenever newIndex is in bounds, so the computed
string keeps every character at its original position. -/
def shiftRowsJS (s : JStr) : JStr :=
  List.flatten ((List.range 4).map (fun row =>
    (List.range 4).filterMap (fun col =>
      let newCol := (col + row) % 4
      let newIndex := row * 4 + newCol
      if newIndex < s.length then some (s.getD (row * 4 + col) 0) else none)))

/-- The row shift the step's explanation (and the spec) describe, for
comparison with shiftRowsJS: grid row r of the row-major 4x4 state is
cyclically shifted left by r positions. Modelled from the spec. -/
def specShiftRows (s : JStr) : JStr :=
  List.flatten ((List.range 4).map (fun r =>
    (List.range 4).map (fun j => s.getD (r * 4 + (j + r) % 4) 0)))

/-- The per-round demonstration key of generateAESSteps: key characters
XORed with 0x2B plus round index plus position index. -/
def aesRoundKey (round : Nat) : JStr :=
  aesKey.mapIdx (fun i c => c ^^^ (43 + round + i))

/-- One main round of generateAESSteps: the step records it pushes (the
Column-Mix record only when round < 3) and the currentState it leaves.
The argument n is the number of step records already pushed. -/
def aesRound (round : Nat) (n : Nat) (currentState : JStr) : List Step × JStr :=
  let afterSubBytes := currentState.map (fun c => (c + round) % 256)
  let subStep : Step :=
    { id := (n : ℚ) + 1,
      title := jstr "Step " ++ natDec (n + 1) ++ jstr ": SubBytes (Round " ++
        natDec round ++ jstr ")",
      description := jstr "Substitute each byte using the AES S-box",
      input := currentState,
      output := afterSubBytes,
      explanation := jstr "Each byte in the state is replaced with its corresponding value in the AES S-box, a non-linear substitution table.",
      visualizationType := some VizType.matrix }
  let afterShiftRows := shiftRowsJS afterSubBytes
  let shiftStep : Step :=
    { id := (n : ℚ) + 2,
      title := jstr "Step " ++ natDec (n + 2) ++ jstr ": ShiftRows (Round " ++
        natDec round ++ jstr ")",
      description := jstr "Shift each row of the state to the left by different offsets",
      input := afterSubBytes,
      output := afterShiftRows,
      explanation := jstr "Row 0 is not shifted, row 1 is shifted left by 1, row 2 by 2, and row 3 by 3 positions.",
      visualizationType := some VizType.matrix }
  if round < 3 then
    let afterMixColumns := afterShiftRows.map (fun c => (c * 2 + round) % 256)
    let mixStep : Step :=
      { id := (n : ℚ) + 3,
        title := jstr "Step " ++ natDec (n + 3) ++ jstr ": MixColumns (Round " ++
          natDec round ++ jstr ")",
        description := jstr "Mix the columns of the state for diffusion",
        input := afterShiftRows,
        output := afterMixColumns,
        explanation := jstr "Each column of the state is multiplied by a fixed polynomial in the Galois Field GF(2^8), providing strong diffusion.",
        visualizationType := some VizType.matrix }
    let afterAddRoundKey := afterMixColumns.mapIdx (fun i c =>
      c ^^^ (aesRoundKey round).getD (i % (aesRoundKey round).length) 0)
    let arkStep : Step :=
      { id := (n : ℚ) + 4,
        title := jstr "Step " ++ natDec (n + 4) ++ jstr ": AddRoundKey (Round " ++
          natDec round ++ jstr ")",
        description := jstr "XOR with round " ++ natDec round ++ jstr " key",
        input := afterMixColumns,
        output := afterAddRoundKey,
        explanation := jstr "The state is XORed with the round key for round " ++
          natDec round ++ jstr ", derived from the key schedule.",
        visualizationType := some VizType.diagram }
    ([subStep, shiftStep, mixStep, arkStep], afterAddRoundKey)
  else
    let afterAddRoundKey := afterShiftRows.mapIdx (fun i c =>
      c ^^^ (aesRoundKey round).getD (i % (aesRoundKey round).length) 0)
    let arkStep : Step :=
      { id := (n : ℚ) + 3,
        title := jstr "Step " ++ natDec (n + 3) ++ jstr ": AddRoundKey (Round " ++
          natDec round ++ jstr ")",
        description := jstr "XOR with round " ++ natDec round ++ jstr " key",
        input := afterShiftRows,
        output := afterAddRoundKey,
        explanation := jstr "The state is XORed with the round key for round " ++
          natDec round ++ jstr ", derived from the key schedule.",
        visualizationType := some VizType.diagram }
    ([subStep, shiftStep, arkStep], afterAddRoundKey)

/-- The in-place assignment to the last pushed record of generateAESSteps
(steps[steps.length - 1].output = finalResult). -/
def setLastOutput (steps : List Step) (o : JStr) : List Step :=
  steps.dropLast ++
    (match steps.getLast? with
     | some s => [{ s with output := o }]
     | none => [])

/-- generateAESSteps of the richer variant. -/
def generateAESSteps (input : JStr) (action : Action) : List Step :=
  let paddedInput := aesPad input
  let step1 : Step :=
    { id := 1,
      title := jstr "Step 1: Convert Input to State Matrix",
      description := jstr "Arrange the input bytes into a 4×4 matrix called the state",
      input := paddedInput,
      output := List.intercalate (jstr "\n") (grid4 paddedInput 32),
      explanation := jstr "AES processes data in blocks of 16 bytes. These bytes are arranged into a 4×4 matrix called the state.",
      visualizationType := some VizType.matrix }
  let step2 : Step :=
    { id := 2,
      title := jstr "Step 2: Key Expansion",
      description := jstr "Expand the key into a key schedule for all rounds",
      input := aesKey.take 16,
      output := jstr "Key schedule generated for all rounds",
      explanation := jstr "The AES key (128/192/256 bits) is expanded to generate round keys for each round of encryption.",
      visualizationType := some VizType.matrix }
  let afterAddRoundKey := paddedInput.mapIdx (fun i c =>
    c ^^^ aesKey.getD (i % aesKey.length) 0)
  let step3 : Step :=
    { id := 3,
      title := jstr "Step 3: Initial AddRoundKey",
      description := jstr "XOR the state with the initial round key",
      input := paddedInput,
      output := afterAddRoundKey,
      explanation := jstr "Before the main rounds begin, the state is XORed with the initial round key (derived from the main key).",
      visualizationType := some VizType.diagram }
  let r1 := aesRound 1 3 afterAddRoundKey
  let r2 := aesRound 2 (3 + r1.1.length) r1.2
  let r3 := aesRound 3 (3 + r1.1.length + r2.1.length) r2.2
  let steps := [step1, step2, step3] ++ r1.1 ++ r2.1 ++ r3.1
  let finalResult := if action = Action.encrypt then base64 (utf8Units r3.2) else r3.2
  setLastOutput steps finalResult

/-- The generateSteps dispatcher: the switch over the algorithm identifier,
whose default branch returns the empty array. -/
def generateSteps (algorithm : String) (input : JStr) (action : Action) : List Step :=
  if algorithm = "checksum" then generateChecksumSteps input
  else if algorithm = "des" then generateDESSteps input action
  else if algorithm = "aes" then generateAESSteps input action
  else []

/-- The playback state of StepVisualizer: the currentStep cursor and the
isAutoPlaying flag. -/
structure SeqState where
  cursor : Nat
  playing : Bool

/-- The playback transitions: the Next button (rendered only while the
cursor is before the last step), the Previous button (clamped at zero by
Math.max), the per-step dot buttons (one per valid index), the Auto Play
toggle, and the autoplay interval tick (fires only while playing and
before the last step). -/
inductive SeqAct where
  | next | prev | jumpTo (i : Nat) | togglePlay | tick

/-- The effect hook that runs after every state change: once the cursor is
at or past the last step it clears the isAutoPlaying flag. -/
def applyEffect (total : Nat) (s : SeqState) : SeqState :=
  if total - 1 ≤ s.cursor then { s with playing := false } else s

/-- One playback transition followed by the effect hook. -/
def seqStep (total : Nat) (s : SeqState) : SeqAct → SeqState
  | SeqAct.next =>
      applyEffect total (if s.cursor < total - 1 then { s with cursor := s.cursor + 1 } else s)
  | SeqAct.prev => applyEffect total { s with cursor := s.cursor - 1 }
  | SeqAct.jumpTo i =>
      applyEffect total (if i < total then { s with cursor := i } else s)
  | SeqAct.togglePlay => applyEffect total { s with playing := !s.playing }
  | SeqAct.tick =>
      applyEffect total (if s.playing ∧ s.cursor < total - 1 then { s with cursor := s.cursor + 1 } else s)

/-- Running a sequence of playback transitions from the freshly loaded
state: cursor zero, not playing. -/
def seqRun (total : Nat) (acts : List SeqAct) : SeqState :=
  acts.foldl (seqStep total) { cursor := 0, playing := false }

/-- The concrete nine-character input ABCDEFGHI used to exercise the
checksum chain across two chunks. -/
def chainCexInput : JStr := [65, 66, 67, 68, 69, 70, 71, 72, 73]

/-- The concrete eight-character input ABCDEFGH. -/
def desCexInput : JStr := [65, 66, 67, 68, 69, 70, 71, 72]

/-- The concrete sixteen-character input ABCDEFGHIJKLMNOP. -/
def aesCexInput : JStr := [65, 66, 67, 68, 69, 70, 71, 72, 73, 74, 75, 76, 77, 78, 79, 80]

/-- First of two inputs whose forward-mode reported results collide: the
letters ABCD followed by four characters of code 256 (the final block then
starts with four two-byte characters, pushing the interesting bytes past
the twelve-character base64 truncation point). -/
def desColl1 : JStr := [65, 66, 67, 68, 256, 256, 256, 256]

/-- Second colliding input: the same except the first letter is B. -/
def desColl2 : JStr := [66, 66, 67, 68, 256, 256, 256, 256]

/-- The invariant of the playback sequencer: the cursor is at most the last
step index, and at the last step the playing flag is off. -/
def seqInv (total : Nat) (s : SeqState) : Prop :=
  s.cursor ≤ total - 1 ∧ (s.cursor = total - 1 → s.playing = false)

/-- Folding addition from an arbitrary start equals the start plus the sum. -/
theorem foldl_add_start (n : Nat) (l : List Nat) : l.foldl (· + ·) n = n + l.sum := by
  induction l generalizing n with
  | nil => simp
  | cons a t ih => simp [ih]; omega

/-- Folding addition from zero is the list sum. -/
theorem foldl_add_eq_sum (l : List Nat) : l.foldl (· + ·) 0 = l.sum := by
  simpa using foldl_add_start 0 l

/-- Every hexadecimal digit character is a decimal digit or one of the
uppercase letters A through F. -/
theorem hexDigit_mem (n : Nat) (h : n < 16) :
    (48 ≤ hexDigit n ∧ hexDigit n ≤ 57) ∨ (65 ≤ hexDigit n ∧ hexDigit n ≤ 70) := by
  unfold hexDigit; split <;> omega

/-- Every character of the hexadecimal rendering is a digit or an
uppercase letter A through F. -/
theorem toHexGo_digits : ∀ (fuel n c : Nat), c ∈ toHexGo fuel n →
    (48 ≤ c ∧ c ≤ 57) ∨ (65 ≤ c ∧ c ≤ 70) := by
  intro fuel
  induction fuel with
  | zero => intro n c hc; simp [toHexGo] at hc
  | succ fuel ih =>
    intro n c hc
    by_cases h16 : n < 16
    · simp only [toHexGo, if_pos h16, List.mem_singleton] at hc
      subst hc
      exact hexDigit_mem n h16
    · simp only [toHexGo, if_neg h16, List.mem_append, List.mem_singleton] at hc
      rcases hc with hc | hc
      · exact ih _ _ hc
      · subst hc
        exact hexDigit_mem _ (Nat.mod_lt _ (by omega))

/-- The hexadecimal rendering of a value below 16 to the power k + 1 has at
most k + 1 characters. -/
theorem toHexGo_length_le : ∀ (fuel k n : Nat), n < 16 ^ (k + 1) →
    (toHexGo fuel n).length ≤ k + 1 := by
  intro fuel
  induction fuel with
  | zero => intro k n _; simp [toHexGo]
  | succ fuel ih =>
    intro k n h
    by_cases h16 : n < 16
    · simp [toHexGo, h16]
    · cases k with
      | zero => exfalso; rw [pow_one] at h; omega
      | succ k =>
        have hpow : (16 : Nat) ^ (k + 2) = 16 ^ (k + 1) * 16 := by ring
        have hd : n / 16 < 16 ^ (k + 1) := by
          rw [Nat.div_lt_iff_lt_mul (by omega)]
          omega
        have := ih k (n / 16) hd
        simp only [toHexGo, if_neg h16, List.length_append, List.length_singleton]
        omega

/-- The checksum value is at most 65535. -/
theorem checksum16_le (input : JStr) : checksum16 input ≤ 65535 := Nat.sub_le _ _

/-- Left-padding a string of at most four characters yields exactly four. -/
theorem padStart4_length (s : JStr) (h : s.length ≤ 4) : (padStart4 s).length = 4 := by
  simp [padStart4]; omega

/-- Joining a one-element list with any separator is that element. -/
theorem intercalate_singleton {α : Type} (sep : List α) (x : List α) :
    List.intercalate sep [x] = x := by
  simp [List.intercalate]

/-- Chunking a nonempty input of at most eight characters yields exactly
that input as the single chunk. -/
theorem chunks8_of_short (input : JStr) (h0 : input ≠ []) (h : input.length ≤ 8) :
    chunks8 input = [input] := by
  match input, h0 with
  | c :: rest, _ =>
    have hd : List.drop 8 (c :: rest) = [] :=
      List.drop_eq_nil_of_le (by simpa using h)
    have ht : List.take 8 (c :: rest) = c :: rest :=
      List.take_of_length_le (by simpa using h)
    show chunks8Go (c :: rest).length (c :: rest) = [c :: rest]
    simp only [List.length_cons, chunks8Go, hd, ht]
    cases rest.length <;> simp [chunks8Go]

/-- C1: for every input, the fourth checksum step computes totalSum as the
sum of the per-chunk sums of character codes and reports the checksum
value (~totalSum) & 0xFFFF, equal to 65535 - totalSum % 65536, rendered as
a 4-digit uppercase hexadecimal string after the Checksum label; in
particular the input TEST (codes 84,69,83,84) gives one chunk, total 320
and checksum 0xFEBF = 65215, and the empty input gives zero chunks, total
0 and checksum 0xFFFF = 65535. -/
theorem checksum_final_step (input : JStr) :
    totalSum input = ((chunks8 input).map List.sum).sum ∧
    checksum16 input = 65535 - totalSum input % 65536 ∧
    ((generateChecksumSteps input).getD 3 default).output =
      jstr "Checksum: " ++ padStart4 (toHexUpper (checksum16 input)) ∧
    (padStart4 (toHexUpper (checksum16 input))).length = 4 ∧
    (∀ c ∈ padStart4 (toHexUpper (checksum16 input)),
      (48 ≤ c ∧ c ≤ 57) ∨ (65 ≤ c ∧ c ≤ 70)) ∧
    chunks8 [84, 69, 83, 84] = [[84, 69, 83, 84]] ∧
    totalSum [84, 69, 83, 84] = 320 ∧ checksum16 [84, 69, 83, 84] = 65215 ∧
    chunks8 [] = [] ∧ totalSum [] = 0 ∧ checksum16 [] = 65535 := by
  have hmap : chunkSums input = (chunks8 input).map List.sum := by
    unfold chunkSums
    exact List.map_congr_left (fun c _ => foldl_add_eq_sum c)
  have hlen : (toHexUpper (checksum16 input)).length ≤ 4 := by
    have := toHexGo_length_le (checksum16 input + 1) 3 (checksum16 input)
      (by have := checksum16_le input; norm_num; omega)
    simpa [toHexUpper] using this
  refine ⟨?_, rfl, rfl, padStart4_length _ hlen, ?_, by decide, by decide, by decide,
    by decide, by decide, by decide⟩
  · unfold totalSum
    rw [hmap, foldl_add_eq_sum]
  · intro c hc
    rcases List.mem_append.mp hc with hc | hc
    · left
      have := List.eq_of_mem_replicate hc
      omega
    · exact toHexGo_digits _ _ _ hc

/-- C2: for every nonempty input and every mode the checksum generator
emits exactly 4 step records, the Feistel-style generator exactly 18, and
the SPN-style generator exactly 14. -/
theorem trace_lengths (input : JStr) (action : Action) (h : input ≠ []) :
    (generateChecksumSteps input).length = 4 ∧
    (generateDESSteps input action).length = 18 ∧
    (generateAESSteps input action).length = 14 :=
  ⟨rfl, rfl, rfl⟩

/-- Witness for the trace-length theorem at the one-character input T in
forward mode. -/
theorem trace_lengths_witness :
    (([84] : JStr) ≠ []) ∧
    ((generateChecksumSteps [84]).length = 4 ∧
     (generateDESSteps [84] Action.encrypt).length = 18 ∧
     (generateAESSteps [84] Action.encrypt).length = 14) :=
  ⟨by decide, trace_lengths [84] Action.encrypt (by decide)⟩

/-- C3: at the input ABCDEFGH, in round 1 of the Feistel-style generator
the block that enters the next round has its right half equal to the old
left half unchanged (first conjunct), its left half different from the old
right half (second conjunct, contradicting the claimed new-left = old
right), and its right half different from the old left half XORed with the
cycled permuted string (third conjunct, contradicting the claimed
new-right); the code swaps the roles the claim (and its own step
explanation) assigns to the two halves. -/
theorem des_round_swaps_halves_at_cex :
    ((desRound 1 ((desPad desCexInput).reverse)).2).drop 4 =
      ((desPad desCexInput).reverse).take 4 ∧
    ((desRound 1 ((desPad desCexInput).reverse)).2).take 4 ≠
      ((desPad desCexInput).reverse).drop 4 ∧
    ((desRound 1 ((desPad desCexInput).reverse)).2).drop 4 ≠
      (((desPad desCexInput).reverse).take 4).mapIdx (fun i c =>
        c ^^^ (desF 1 (((desPad desCexInput).reverse).drop 4)).getD
          (i % (desF 1 (((desPad desCexInput).reverse).drop 4)).length) 0) := by
  decide

/-- C4: at the input ABCDEFGHIJKLMNOP, the round-1 Row-Shift step of the
SPN-style generator has an output snapshot equal to its input snapshot
(the loop appends each character at its original index, so no row is
shifted) and different from the state with row r cyclically shifted left
by r positions that the claim (and the step explanation) describe. -/
theorem aes_shiftRows_identity_at_cex :
    ((generateAESSteps aesCexInput Action.encrypt).getD 4 default).output =
      ((generateAESSteps aesCexInput Action.encrypt).getD 4 default).input ∧
    ((generateAESSteps aesCexInput Action.encrypt).getD 4 default).output ≠
      specShiftRows
        (((generateAESSteps aesCexInput Action.encrypt).getD 4 default).input) := by
  decide

/-- C5 counterexample: two inputs whose final blocks differ but whose
forward-mode reported results are identical, because the base64 encoding
is truncated to its first twelve characters; the encoding of the final
block into the reported result is therefore not injective and the raw
bytes are not recoverable. -/
theorem des_forward_encoding_not_injective :
    desFinalBlock desColl1 ≠ desFinalBlock desColl2 ∧
    ((generateDESSteps desColl1 Action.encrypt).getD 17 default).output =
      ((generateDESSteps desColl2 Action.encrypt).getD 17 default).output := by
  decide

/-- C5 amended: for every input, the forward-mode reported result is the
first twelve characters of the base64 encoding of the UTF-8 bytes of the
reversed final block followed by an ellipsis (a lossy, non-injective
rendering), and the inverse-mode (and both-mode) result is the reversed
bytes unencoded. -/
theorem des_forward_result_truncated_base64 (input : JStr) (action : Action) :
    ((generateDESSteps input action).getD 17 default).output =
      (if action = Action.encrypt then
        (base64 (utf8Units (desFinalBlock input))).take 12 ++ jstr "..."
      else desFinalBlock input) := rfl

/-- C6 counterexample: at the nine-character input ABCDEFGHI (two chunks)
the output snapshot of step 3 joins the chunk sums with a comma separator
while the input snapshot of step 4 joins them with a plus separator, so
the adjacent-pair chain breaks between steps 3 and 4. -/
theorem checksum_chain_broken_at_cex :
    ((generateChecksumSteps chainCexInput).getD 2 default).output ≠
      ((generateChecksumSteps chainCexInput).getD 3 default).input := by
  decide

/-- C6 amended: for every input the chain holds between steps 1 and 2 and
between steps 2 and 3; the step 3 to step 4 link holds whenever the input
has at most 8 characters (a single chunk), the separator mismatch being
invisible for fewer than two chunk sums. -/
theorem checksum_chain_amended (input : JStr) :
    ((generateChecksumSteps input).getD 0 default).output =
      ((generateChecksumSteps input).getD 1 default).input ∧
    ((generateChecksumSteps input).getD 1 default).output =
      ((generateChecksumSteps input).getD 2 default).input ∧
    (input.length ≤ 8 →
      ((generateChecksumSteps input).getD 2 default).output =
        ((generateChecksumSteps input).getD 3 default).input) := by
  refine ⟨rfl, rfl, fun h => ?_⟩
  by_cases h0 : input = []
  · subst h0; rfl
  · have hc : chunks8 input = [input] := chunks8_of_short input h0 h
    show List.intercalate (jstr ", ") ((chunkSums input).map natDec) =
      List.intercalate (jstr " + ") ((chunkSums input).map natDec)
    rw [chunkSums, hc]
    simp only [List.map_map, List.map_cons, List.map_nil]
    rw [intercalate_singleton, intercalate_singleton]

/-- Witness for the amended chain theorem at the input TEST. -/
theorem checksum_chain_amended_witness :
    (([84, 69, 83, 84] : JStr).length ≤ 8) ∧
    ((generateChecksumSteps [84, 69, 83, 84]).getD 2 default).output =
      ((generateChecksumSteps [84, 69, 83, 84]).getD 3 default).input :=
  ⟨by decide, (checksum_chain_amended [84, 69, 83, 84]).2.2 (by decide)⟩

/-- C7 counterexample: dispatching an unsupported identifier returns the
empty step list; no error value is produced, contradicting the claim that
an UnsupportedAlgorithm error is raised and that an empty step list is
never returned. -/
theorem dispatcher_unknown_returns_empty :
    generateSteps "rsa" [84, 69, 83, 84] Action.encrypt = [] := rfl

/-- C7 amended: each of the three supported identifiers routes to its
generator, and every other identifier makes the dispatcher return the
empty step list (its default branch) rather than raising an error. -/
theorem dispatcher_routes_and_default (alg : String) (input : JStr) (action : Action)
    (h : alg ≠ "checksum" ∧ alg ≠ "des" ∧ alg ≠ "aes") :
    generateSteps alg input action = [] ∧
    generateSteps "checksum" input action = generateChecksumSteps input ∧
    generateSteps "des" input action = generateDESSteps input action ∧
    generateSteps "aes" input action = generateAESSteps input action := by
  refine ⟨?_, rfl, rfl, rfl⟩
  simp [generateSteps, h.1, h.2.1, h.2.2]

/-- Witness for the dispatcher theorem at the unsupported identifier rsa. -/
theorem dispatcher_routes_and_default_witness :
    (("rsa" : String) ≠ "checksum" ∧ ("rsa" : String) ≠ "des" ∧
      ("rsa" : String) ≠ "aes") ∧
    (generateSteps "rsa" [84] Action.encrypt = [] ∧
     generateSteps "checksum" [84] Action.encrypt = generateChecksumSteps [84] ∧
     generateSteps "des" [84] Action.encrypt = generateDESSteps [84] Action.encrypt ∧
     generateSteps "aes" [84] Action.encrypt = generateAESSteps [84] Action.encrypt) :=
  ⟨by decide, dispatcher_routes_and_default "rsa" [84] Action.encrypt (by decide)⟩

/-- The effect hook establishes the invariant whenever the cursor is in
bounds beforehand. -/
theorem applyEffect_inv (total : Nat) (s : SeqState) (h : s.cursor ≤ total - 1) :
    seqInv total (applyEffect total s) := by
  unfold applyEffect seqInv
  split
  · exact ⟨h, fun _ => rfl⟩
  · next hc => exact ⟨h, fun he => absurd he (by omega)⟩

/-- Every playback transition preserves the sequencer invariant. -/
theorem seqStep_inv (total : Nat) (s : SeqState) (a : SeqAct) (h : seqInv total s) :
    seqInv total (seqStep total s a) := by
  cases a with
  | next =>
    simp only [seqStep]
    split
    · next hc => exact applyEffect_inv _ _ (show s.cursor + 1 ≤ total - 1 by omega)
    · exact applyEffect_inv _ _ h.1
  | prev =>
    simp only [seqStep]
    exact applyEffect_inv _ _ (show s.cursor - 1 ≤ total - 1 by have := h.1; omega)
  | jumpTo i =>
    simp only [seqStep]
    split
    · next hc => exact applyEffect_inv _ _ (show i ≤ total - 1 by omega)
    · exact applyEffect_inv _ _ h.1
  | togglePlay =>
    simp only [seqStep]
    exact applyEffect_inv _ _ h.1
  | tick =>
    simp only [seqStep]
    split
    · next hc => exact applyEffect_inv _ _ (show s.cursor + 1 ≤ total - 1 by omega)
    · exact applyEffect_inv _ _ h.1

/-- Folding any transition sequence preserves the sequencer invariant. -/
theorem foldl_seqStep_inv (total : Nat) (acts : List SeqAct) :
    ∀ s, seqInv total s → seqInv total (acts.foldl (seqStep total) s) := by
  induction acts with
  | nil => exact fun s h => h
  | cons a rest ih => exact fun s h => ih _ (seqStep_inv total s a h)

/-- C8: for every loaded trace of at least one step and every finite
sequence of next, previous, jumpTo, togglePlay and autoplay-tick
transitions from cursor 0, the cursor stays within 0 and total - 1, and
whenever the cursor is at the last step the playing flag is off (autoplay
stops at the last step). -/
theorem sequencer_cursor_bounds (total : Nat) (h : 1 ≤ total) (acts : List SeqAct) :
    (seqRun total acts).cursor ≤ total - 1 ∧
    ((seqRun total acts).cursor = total - 1 → (seqRun total acts).playing = false) := by
  have h0 : seqInv total { cursor := 0, playing := false } :=
    ⟨Nat.zero_le _, fun _ => rfl⟩
  exact foldl_seqStep_inv total acts _ h0

/-- Witness for the sequencer theorem: a four-step trace driven through a
toggle, ticks, a next, an out-of-range jump attempt and more ticks. -/
theorem sequencer_cursor_bounds_witness :
    1 ≤ 4 ∧
    ((seqRun 4 [SeqAct.togglePlay, SeqAct.tick, SeqAct.next, SeqAct.jumpTo 9,
        SeqAct.tick, SeqAct.tick]).cursor ≤ 3 ∧
     ((seqRun 4 [SeqAct.togglePlay, SeqAct.tick, SeqAct.next, SeqAct.jumpTo 9,
        SeqAct.tick, SeqAct.tick]).cursor = 3 →
      (seqRun 4 [SeqAct.togglePlay, SeqAct.tick, SeqAct.next, SeqAct.jumpTo 9,
        SeqAct.tick, SeqAct.tick]).playing = false)) :=
  ⟨by decide, sequencer_cursor_bounds 4 (by decide)
    [SeqAct.togglePlay, SeqAct.tick, SeqAct.next, SeqAct.jumpTo 9,
      SeqAct.tick, SeqAct.tick]⟩

/-- C9: the checksum generator ignores the mode entirely: for every input
and any two modes the dispatched checksum traces are identical step lists
(hence identical titles, snapshots, explanations and final result). -/
theorem checksum_ignores_mode (input : JStr) (m1 m2 : Action) :
    generateSteps "checksum" input m1 = generateSteps "checksum" input m2 := rfl

/-- C10: the checksum generators of the richer (canonical) and the minimal
(superseded) source variants agree extensionally: projecting the richer
steps onto the common fields (id, title, description, input, output,
explanation, visualization) yields exactly the minimal variant steps, in
order, for every input. -/
theorem checksum_variants_agree (input : JStr) :
    (generateChecksumSteps input).map projStep = generateChecksumStepsMin input := rfl

end StepViz
